import Mathlib

/-!
Verification of the gRPC banking service (`server.py`) against its
natural-language specification.

The service keeps one record per account in a Redis hash keyed by
`"account:" + id`, with fields `account_type` (a string) and `balance`
(a Python float).  We embed the store as a function from account ids to
optional records, and model the decimal balance/amount values as
rationals (ℚ): all the arithmetic the handlers perform (`+`, `-`,
`* (rate / 100)`) is exact on the values the spec quantifies over, and
the spec itself only demands exactness "within floating tolerance".

Each gRPC handler becomes a pure function from the store and the request
fields to a response paired with the updated store.  Error paths set a
status code and return an otherwise-empty protobuf message (whose numeric
fields default to 0 and string fields to ""), exactly as
`context.set_code(...)` followed by `return bank_pb2.XxxResponse()` does.
Human-readable detail strings are not modelled; no claim depends on them.
-/

namespace Bank

/-- The gRPC status codes the handlers in `server.py` ever set, plus `OK`
for the success path (gRPC's default when no code is set). -/
inductive StatusCode where
  | OK
  | INVALID_ARGUMENT
  | ALREADY_EXISTS
  | NOT_FOUND
  | FAILED_PRECONDITION
deriving DecidableEq

/-- One stored account record: the Redis hash `{account_type, balance}`. -/
structure AccountRecord where
  account_type : String
  balance : ℚ
deriving DecidableEq

/-- The Redis store, restricted to the `account:*` keyspace the server
uses: a map from account id to the optional stored record. -/
abbrev Store := String → Option AccountRecord

/-- Empty store: no account has ever been created. -/
def emptyStore : Store := fun _ => none

/-- Full-record write, as `redis_client.hmset(f"account:{id}", {...})`:
creates or overwrites the whole hash at `id`. -/
def Store.hmset (s : Store) (account_id : String) (rec : AccountRecord) : Store :=
  fun k => if k = account_id then some rec else s k

/-- Single-field balance overwrite, as
`redis_client.hset(f"account:{id}", 'balance', new_balance)`.
Every call site in `server.py` performs it after `get_account_data`
returned a record, so the hash exists and only its `balance` field
changes; on an absent key this model is a no-op (never exercised). -/
def Store.hsetBalance (s : Store) (account_id : String) (new_balance : ℚ) : Store :=
  fun k =>
    if k = account_id then
      (s k).map (fun a => { account_type := a.account_type, balance := new_balance })
    else s k

/-- Read-and-decode of one account, as `get_account_data`: `hgetall` of
the hash, `None` if the hash is absent, otherwise the decoded record. -/
def get_account_data (s : Store) (account_id : String) : Option AccountRecord :=
  s account_id

/-- Modelled `bank_pb2.AccountResponse` (message string omitted), tagged
with the status code the handler leaves on the gRPC context. -/
structure AccountResponse where
  code : StatusCode
  account_id : String
deriving DecidableEq

/-- Modelled `bank_pb2.BalanceResponse` (message string omitted). -/
structure BalanceResponse where
  code : StatusCode
  account_id : String
  balance : ℚ
deriving DecidableEq

/-- Modelled `bank_pb2.TransactionResponse` (message string omitted). -/
structure TransactionResponse where
  code : StatusCode
  account_id : String
  balance : ℚ
deriving DecidableEq

/-- Handler `BankServiceServicer.CreateAccount`: validate the account
type against `['savings', 'checking']`, reject a duplicate id with
`ALREADY_EXISTS`, otherwise write a fresh record with balance 0. -/
def CreateAccount (s : Store) (account_id account_type : String) :
    AccountResponse × Store :=
  if ¬ (account_type = "savings" ∨ account_type = "checking") then
    ({ code := .INVALID_ARGUMENT, account_id := "" }, s)
  else if (s account_id).isSome then
    ({ code := .ALREADY_EXISTS, account_id := "" }, s)
  else
    ({ code := .OK, account_id := account_id },
     s.hmset account_id { account_type := account_type, balance := 0 })

/-- Handler `BankServiceServicer.GetBalance`: read the record (no lock),
`NOT_FOUND` if absent, else return the stored balance. -/
def GetBalance (s : Store) (account_id : String) : BalanceResponse × Store :=
  match get_account_data s account_id with
  | none => ({ code := .NOT_FOUND, account_id := "", balance := 0 }, s)
  | some a =>
      ({ code := .OK, account_id := account_id, balance := a.balance }, s)

/-- Handler `BankServiceServicer.Deposit`: reject `amount <= 0`, read
under the account lock, `NOT_FOUND` if absent, else write back
`balance + amount` and return it. -/
def Deposit (s : Store) (account_id : String) (amount : ℚ) :
    TransactionResponse × Store :=
  if amount ≤ 0 then
    ({ code := .INVALID_ARGUMENT, account_id := "", balance := 0 }, s)
  else
    match get_account_data s account_id with
    | none => ({ code := .NOT_FOUND, account_id := "", balance := 0 }, s)
    | some a =>
        let new_balance := a.balance + amount
        ({ code := .OK, account_id := account_id, balance := new_balance },
         s.hsetBalance account_id new_balance)

/-- Handler `BankServiceServicer.Withdraw`: reject `amount <= 0`, read
under the lock, `NOT_FOUND` if absent, `FAILED_PRECONDITION` if
`balance < amount`, else write back `balance - amount` and return it. -/
def Withdraw (s : Store) (account_id : String) (amount : ℚ) :
    TransactionResponse × Store :=
  if amount ≤ 0 then
    ({ code := .INVALID_ARGUMENT, account_id := "", balance := 0 }, s)
  else
    match get_account_data s account_id with
    | none => ({ code := .NOT_FOUND, account_id := "", balance := 0 }, s)
    | some a =>
        if a.balance < amount then
          ({ code := .FAILED_PRECONDITION, account_id := "", balance := 0 }, s)
        else
          let new_balance := a.balance - amount
          ({ code := .OK, account_id := account_id, balance := new_balance },
           s.hsetBalance account_id new_balance)

/-- Handler `BankServiceServicer.CalculateInterest`: reject
`annual_interest_rate <= 0`, read under the lock, `NOT_FOUND` if absent,
else apply the full supplied rate once:
`interest_amount = balance * (rate / 100)`,
`new_balance = balance + interest_amount`. -/
def CalculateInterest (s : Store) (account_id : String)
    (annual_interest_rate : ℚ) : TransactionResponse × Store :=
  if annual_interest_rate ≤ 0 then
    ({ code := .INVALID_ARGUMENT, account_id := "", balance := 0 }, s)
  else
    match get_account_data s account_id with
    | none => ({ code := .NOT_FOUND, account_id := "", balance := 0 }, s)
    | some a =>
        let rate := annual_interest_rate
        let interest_amount := a.balance * (rate / 100)
        let new_balance := a.balance + interest_amount
        ({ code := .OK, account_id := account_id, balance := new_balance },
         s.hsetBalance account_id new_balance)

/-- An inbound request: which of the five operations is invoked, with
its request-message fields. -/
inductive Request where
  | createAccount (account_id account_type : String)
  | getBalance (account_id : String)
  | deposit (account_id : String) (amount : ℚ)
  | withdraw (account_id : String) (amount : ℚ)
  | calculateInterest (account_id : String) (annual_interest_rate : ℚ)

/-- Dispatch a request to its handler, keeping only the status code of
the response (the shape shared by all five response messages) and the
updated store. -/
def stepCode (s : Store) (r : Request) : StatusCode × Store :=
  match r with
  | .createAccount account_id account_type =>
      let p := CreateAccount s account_id account_type
      (p.1.code, p.2)
  | .getBalance account_id =>
      let p := GetBalance s account_id
      (p.1.code, p.2)
  | .deposit account_id amount =>
      let p := Deposit s account_id amount
      (p.1.code, p.2)
  | .withdraw account_id amount =>
      let p := Withdraw s account_id amount
      (p.1.code, p.2)
  | .calculateInterest account_id rate =>
      let p := CalculateInterest s account_id rate
      (p.1.code, p.2)

/-- The store after a sequence of requests, applied left to right. -/
def applySeq (s : Store) : List Request → Store
  | [] => s
  | r :: rs => applySeq (stepCode s r).2 rs

/-- A concrete one-account store used to instantiate theorems: account
"A" is a savings account holding 100. -/
def wStoreA : Store :=
  fun k => if k = "A" then some { account_type := "savings", balance := 100 } else none

/-- C1: Deposit of a positive amount on an existing account with balance
b succeeds, returns balance b + amount, stores b + amount, and a
subsequent GetBalance on the same id returns exactly b + amount. -/
theorem deposit_adds_amount (s : Store) (account_id : String)
    (a : AccountRecord) (b amount : ℚ) (hs : s account_id = some a)
    (hb : a.balance = b) (hpos : 0 < amount) :
    (Deposit s account_id amount).1.code = .OK ∧
    (Deposit s account_id amount).1.balance = b + amount ∧
    (Deposit s account_id amount).2 account_id =
      some { account_type := a.account_type, balance := b + amount } ∧
    (GetBalance (Deposit s account_id amount).2 account_id).1.balance
      = b + amount := by
  have hnle : ¬ amount ≤ 0 := not_le.mpr hpos
  simp [Deposit, GetBalance, get_account_data, Store.hsetBalance, hs, hb, hnle]

/-- Witness for C1 at the concrete store `wStoreA`. -/
theorem deposit_adds_amount_witness :
    (Deposit wStoreA "A" 5).1.code = .OK ∧
    (Deposit wStoreA "A" 5).1.balance = 100 + 5 ∧
    (Deposit wStoreA "A" 5).2 "A" =
      some { account_type := "savings", balance := 100 + 5 } ∧
    (GetBalance (Deposit wStoreA "A" 5).2 "A").1.balance = 100 + 5 :=
  deposit_adds_amount wStoreA "A" { account_type := "savings", balance := 100 }
    100 5 (by decide) (by decide) (by decide)

/-- C2: Withdraw on an existing account: a non-positive amount is
rejected with INVALID_ARGUMENT; a positive amount exceeding the balance
is rejected with FAILED_PRECONDITION and the record is unchanged; a
positive amount at most the balance succeeds, returning and storing
balance - amount. -/
theorem withdraw_cases (s : Store) (account_id : String) (a : AccountRecord)
    (amount : ℚ) (hs : s account_id = some a) :
    (amount ≤ 0 →
       (Withdraw s account_id amount).1.code = .INVALID_ARGUMENT ∧
       (Withdraw s account_id amount).2 account_id = some a) ∧
    (0 < amount → a.balance < amount →
       (Withdraw s account_id amount).1.code = .FAILED_PRECONDITION ∧
       (Withdraw s account_id amount).2 account_id = some a) ∧
    (0 < amount → amount ≤ a.balance →
       (Withdraw s account_id amount).1.code = .OK ∧
       (Withdraw s account_id amount).1.balance = a.balance - amount ∧
       (Withdraw s account_id amount).2 account_id =
         some { account_type := a.account_type,
                balance := a.balance - amount }) := by
  refine ⟨fun hle => ?_, fun hpos hlt => ?_, fun hpos hge => ?_⟩
  · simp [Withdraw, hle, hs]
  · have hnle : ¬ amount ≤ 0 := not_le.mpr hpos
    simp [Withdraw, get_account_data, hs, hnle, hlt]
  · have hnle : ¬ amount ≤ 0 := not_le.mpr hpos
    have hnlt : ¬ a.balance < amount := not_lt.mpr hge
    simp [Withdraw, get_account_data, Store.hsetBalance, hs, hnle, hnlt]

/-- Witness for C2 at `wStoreA` (balance 100): withdrawing 500 hits the
FAILED_PRECONDITION branch and leaves the record intact, withdrawing 40
succeeds with 60, withdrawing -1 is INVALID_ARGUMENT. -/
theorem withdraw_cases_witness :
    ((Withdraw wStoreA "A" (-1)).1.code = .INVALID_ARGUMENT) ∧
    ((Withdraw wStoreA "A" 500).1.code = .FAILED_PRECONDITION ∧
      (Withdraw wStoreA "A" 500).2 "A" =
        some { account_type := "savings", balance := 100 }) ∧
    ((Withdraw wStoreA "A" 40).1.code = .OK ∧
      (Withdraw wStoreA "A" 40).1.balance = 100 - 40) := by
  refine ⟨?_, ?_, ?_, ?_⟩
  · exact ((withdraw_cases wStoreA "A" { account_type := "savings", balance := 100 }
      (-1) (by decide)).1 (by decide)).1
  · exact (withdraw_cases wStoreA "A" { account_type := "savings", balance := 100 }
      500 (by decide)).2.1 (by decide) (by decide)
  · exact ((withdraw_cases wStoreA "A" { account_type := "savings", balance := 100 }
      40 (by decide)).2.2 (by decide) (by decide)).1
  · exact ((withdraw_cases wStoreA "A" { account_type := "savings", balance := 100 }
      40 (by decide)).2.2 (by decide) (by decide)).2.1

/-- C3: CalculateInterest on an existing account with a positive rate
applies the full supplied rate as a single-period percentage, storing
and returning balance + balance * (rate / 100); a non-positive rate is
rejected with INVALID_ARGUMENT. -/
theorem calculateInterest_cases (s : Store) (account_id : String)
    (a : AccountRecord) (rate : ℚ) (hs : s account_id = some a) :
    (0 < rate →
       (CalculateInterest s account_id rate).1.code = .OK ∧
       (CalculateInterest s account_id rate).2 account_id =
         some { account_type := a.account_type,
                balance := a.balance + a.balance * (rate / 100) } ∧
       (CalculateInterest s account_id rate).1.balance
         = a.balance + a.balance * (rate / 100)) ∧
    (rate ≤ 0 →
       (CalculateInterest s account_id rate).1.code = .INVALID_ARGUMENT) := by
  refine ⟨fun hpos => ?_, fun hle => ?_⟩
  · have hnle : ¬ rate ≤ 0 := not_le.mpr hpos
    simp [CalculateInterest, get_account_data, Store.hsetBalance, hs, hnle]
  · simp [CalculateInterest, hle]

/-- Witness for C3 at `wStoreA` (balance 100) with rate 10: the stored
and returned balance is 100 + 100 * (10 / 100) = 110. -/
theorem calculateInterest_cases_witness :
    ((CalculateInterest wStoreA "A" 10).1.code = .OK ∧
     (CalculateInterest wStoreA "A" 10).2 "A" =
       some { account_type := "savings",
              balance := 100 + 100 * (10 / 100) } ∧
     (CalculateInterest wStoreA "A" 10).1.balance
       = 100 + 100 * (10 / 100)) ∧
    ((CalculateInterest wStoreA "A" 0).1.code = .INVALID_ARGUMENT) :=
  ⟨(calculateInterest_cases wStoreA "A"
      { account_type := "savings", balance := 100 } 10 (by decide)).1 (by decide),
   (calculateInterest_cases wStoreA "A"
      { account_type := "savings", balance := 100 } 0 (by decide)).2 (by decide)⟩

/-- C6: CreateAccount with a valid type on an absent id succeeds,
stores a record with balance 0, and an immediately following GetBalance
on the same id returns balance 0. -/
theorem create_then_getBalance (s : Store) (account_id account_type : String)
    (hty : account_type = "savings" ∨ account_type = "checking")
    (habs : s account_id = none) :
    (CreateAccount s account_id account_type).1.code = .OK ∧
    (CreateAccount s account_id account_type).2 account_id =
      some { account_type := account_type, balance := 0 } ∧
    (GetBalance (CreateAccount s account_id account_type).2 account_id).1.code
      = .OK ∧
    (GetBalance (CreateAccount s account_id account_type).2 account_id).1.balance
      = 0 := by
  have h1 : ¬ ¬ (account_type = "savings" ∨ account_type = "checking") :=
    not_not_intro hty
  simp [CreateAccount, GetBalance, get_account_data, Store.hmset, h1, habs]

/-- Witness for C6: creating "B" as checking in the empty store, then
reading its balance, yields 0. -/
theorem create_then_getBalance_witness :
    (CreateAccount emptyStore "B" "checking").1.code = .OK ∧
    (CreateAccount emptyStore "B" "checking").2 "B" =
      some { account_type := "checking", balance := 0 } ∧
    (GetBalance (CreateAccount emptyStore "B" "checking").2 "B").1.code = .OK ∧
    (GetBalance (CreateAccount emptyStore "B" "checking").2 "B").1.balance = 0 :=
  create_then_getBalance emptyStore "B" "checking" (Or.inr rfl) rfl

/-- A CreateAccount that does not report OK (either validation or the
duplicate check failed) returns before the `hmset` call, so the store is
untouched. -/
theorem createAccount_fail_frame (s : Store) (account_id account_type : String)
    (h : (CreateAccount s account_id account_type).1.code ≠ .OK) :
    (CreateAccount s account_id account_type).2 = s := by
  unfold CreateAccount at h ⊢
  by_cases h1 : ¬ (account_type = "savings" ∨ account_type = "checking")
  · simp [h1]
  · by_cases h2 : (s account_id).isSome
    · simp [h1, h2]
    · simp [h1, h2] at h

/-- GetBalance never writes: the store component of its result is the
input store, on every path. -/
theorem getBalance_frame (s : Store) (account_id : String) :
    (GetBalance s account_id).2 = s := by
  unfold GetBalance
  cases get_account_data s account_id <;> rfl

/-- A Deposit that does not report OK (rejected amount or missing
account) returns before the `hset` call, so the store is untouched. -/
theorem deposit_fail_frame (s : Store) (account_id : String) (amount : ℚ)
    (h : (Deposit s account_id amount).1.code ≠ .OK) :
    (Deposit s account_id amount).2 = s := by
  unfold Deposit at h ⊢
  by_cases h1 : amount ≤ 0
  · simp [h1]
  · cases hd : get_account_data s account_id with
    | none => simp [h1, hd]
    | some a => simp [h1, hd] at h

/-- A Withdraw that does not report OK (rejected amount, missing
account, or insufficient funds) returns before the `hset` call, so the
store is untouched. -/
theorem withdraw_fail_frame (s : Store) (account_id : String) (amount : ℚ)
    (h : (Withdraw s account_id amount).1.code ≠ .OK) :
    (Withdraw s account_id amount).2 = s := by
  unfold Withdraw at h ⊢
  by_cases h1 : amount ≤ 0
  · simp [h1]
  · cases hd : get_account_data s account_id with
    | none => simp [h1, hd]
    | some a =>
        by_cases h2 : a.balance < amount
        · simp [h1, hd, h2]
        · simp [h1, hd, h2] at h

/-- A CalculateInterest that does not report OK (rejected rate or
missing account) returns before the `hset` call, so the store is
untouched. -/
theorem calculateInterest_fail_frame (s : Store) (account_id : String)
    (rate : ℚ) (h : (CalculateInterest s account_id rate).1.code ≠ .OK) :
    (CalculateInterest s account_id rate).2 = s := by
  unfold CalculateInterest at h ⊢
  by_cases h1 : rate ≤ 0
  · simp [h1]
  · cases hd : get_account_data s account_id with
    | none => simp [h1, hd]
    | some a => simp [h1, hd] at h

/-- C4: every invocation of any of the five operations that fails with
INVALID_ARGUMENT, ALREADY_EXISTS, NOT_FOUND or FAILED_PRECONDITION
leaves the stored state of every account exactly as it was. -/
theorem failing_op_preserves_store (s : Store) (r : Request)
    (hfail : (stepCode s r).1 = .INVALID_ARGUMENT ∨
             (stepCode s r).1 = .ALREADY_EXISTS ∨
             (stepCode s r).1 = .NOT_FOUND ∨
             (stepCode s r).1 = .FAILED_PRECONDITION) :
    ∀ k, (stepCode s r).2 k = s k := by
  have hne : (stepCode s r).1 ≠ .OK := by
    rcases hfail with h | h | h | h <;> simp [h]
  intro k
  cases r with
  | createAccount account_id account_type =>
      exact congrFun
        (createAccount_fail_frame s account_id account_type
          (by simpa [stepCode] using hne)) k
  | getBalance account_id =>
      exact congrFun (getBalance_frame s account_id) k
  | deposit account_id amount =>
      exact congrFun
        (deposit_fail_frame s account_id amount
          (by simpa [stepCode] using hne)) k
  | withdraw account_id amount =>
      exact congrFun
        (withdraw_fail_frame s account_id amount
          (by simpa [stepCode] using hne)) k
  | calculateInterest account_id rate =>
      exact congrFun
        (calculateInterest_fail_frame s account_id rate
          (by simpa [stepCode] using hne)) k

/-- Witness for C4: Deposit of -5 on the concrete store `wStoreA` is
rejected with INVALID_ARGUMENT and the existing balance of "A" is
untouched. -/
theorem failing_op_preserves_store_witness :
    (stepCode wStoreA (.deposit "A" (-5))).2 "A" = wStoreA "A" :=
  failing_op_preserves_store wStoreA (.deposit "A" (-5))
    (Or.inl (by decide)) "A"

/-- Counterexample to C7: CreateAccount, applied to the absent id "ZZZ",
does not yield NOT_FOUND — it succeeds and creates the account. -/
theorem createAccount_absent_not_notFound :
    emptyStore "ZZZ" = none ∧
    (stepCode emptyStore (.createAccount "ZZZ" "savings")).1 = .OK ∧
    (stepCode emptyStore (.createAccount "ZZZ" "savings")).1
      ≠ .NOT_FOUND := by
  refine ⟨rfl, by decide, by decide⟩

/-- C7 as amended: every record-reading operation on an absent id yields
NOT_FOUND — GetBalance unconditionally, and Deposit, Withdraw,
CalculateInterest whenever their argument-validation gate passes
(positive amount or rate). CreateAccount is excluded: on an absent id it
creates the account. -/
theorem notFound_on_absent_id (s : Store) (account_id : String)
    (habs : s account_id = none) :
    (GetBalance s account_id).1.code = .NOT_FOUND ∧
    (∀ amount : ℚ, 0 < amount →
       (Deposit s account_id amount).1.code = .NOT_FOUND) ∧
    (∀ amount : ℚ, 0 < amount →
       (Withdraw s account_id amount).1.code = .NOT_FOUND) ∧
    (∀ rate : ℚ, 0 < rate →
       (CalculateInterest s account_id rate).1.code = .NOT_FOUND) := by
  refine ⟨?_, fun amount h => ?_, fun amount h => ?_, fun rate h => ?_⟩
  · simp [GetBalance, get_account_data, habs]
  · simp [Deposit, get_account_data, habs, not_le.mpr h]
  · simp [Withdraw, get_account_data, habs, not_le.mpr h]
  · simp [CalculateInterest, get_account_data, habs, not_le.mpr h]

/-- Witness for the amended C7 on the never-created id "ZZZ". -/
theorem notFound_on_absent_id_witness :
    (GetBalance emptyStore "ZZZ").1.code = .NOT_FOUND ∧
    (Deposit emptyStore "ZZZ" 5).1.code = .NOT_FOUND ∧
    (Withdraw emptyStore "ZZZ" 5).1.code = .NOT_FOUND ∧
    (CalculateInterest emptyStore "ZZZ" 5).1.code = .NOT_FOUND := by
  obtain ⟨h1, h2, h3, h4⟩ := notFound_on_absent_id emptyStore "ZZZ" rfl
  exact ⟨h1, h2 5 (by decide), h3 5 (by decide), h4 5 (by decide)⟩

/-- Counterexample to C8: on the existing id "A", CreateAccount with the
non-enumerated type "gold" yields INVALID_ARGUMENT, not ALREADY_EXISTS —
the type validation runs before the existence check. -/
theorem createAccount_existing_invalid_type :
    (wStoreA "A").isSome = true ∧
    (CreateAccount wStoreA "A" "gold").1.code = .INVALID_ARGUMENT ∧
    (CreateAccount wStoreA "A" "gold").1.code ≠ .ALREADY_EXISTS := by
  refine ⟨by decide, by decide, by decide⟩

/-- C8 as amended: on an id whose record exists, CreateAccount with a
valid type (savings or checking) yields ALREADY_EXISTS — regardless of
prior operations — and leaves the store unmodified; with a
non-enumerated type it yields INVALID_ARGUMENT instead, likewise
leaving the store unmodified. -/
theorem createAccount_existing_cases (s : Store)
    (account_id account_type : String)
    (hex : (s account_id).isSome = true) :
    ((account_type = "savings" ∨ account_type = "checking") →
       (CreateAccount s account_id account_type).1.code = .ALREADY_EXISTS ∧
       (CreateAccount s account_id account_type).2 = s) ∧
    (¬ (account_type = "savings" ∨ account_type = "checking") →
       (CreateAccount s account_id account_type).1.code = .INVALID_ARGUMENT ∧
       (CreateAccount s account_id account_type).2 = s) := by
  refine ⟨fun hty => ?_, fun hty => ?_⟩
  · have h1 := not_not_intro hty
    simp [CreateAccount, h1, hex]
  · simp [CreateAccount, hty]

/-- Witness for the amended C8 at the concrete store `wStoreA`. -/
theorem createAccount_existing_cases_witness :
    ((CreateAccount wStoreA "A" "savings").1.code = .ALREADY_EXISTS ∧
     (CreateAccount wStoreA "A" "savings").2 = wStoreA) ∧
    ((CreateAccount wStoreA "A" "gold").1.code = .INVALID_ARGUMENT ∧
     (CreateAccount wStoreA "A" "gold").2 = wStoreA) :=
  ⟨(createAccount_existing_cases wStoreA "A" "savings" (by decide)).1
     (Or.inl rfl),
   (createAccount_existing_cases wStoreA "A" "gold" (by decide)).2
     (by decide)⟩

/-- Every account present in the store has a non-negative balance. -/
def NonNegStore (s : Store) : Prop :=
  ∀ k a, s k = some a → 0 ≤ a.balance

/-- Master step lemma for non-negativity: if every record stored at key
k has a non-negative balance, then after any single request the record
at k (if any) still has a non-negative balance.  Newly created records
carry balance 0; Deposit adds a positive amount; Withdraw only proceeds
when the amount does not exceed the balance; CalculateInterest scales a
non-negative balance by 1 + rate/100 with rate positive. -/
theorem step_balance_nonneg (s : Store) (r : Request) (k : String)
    (b : AccountRecord) (hk : ∀ a, s k = some a → 0 ≤ a.balance)
    (hb : (stepCode s r).2 k = some b) : 0 ≤ b.balance := by
  cases r with
  | createAccount account_id account_type =>
      simp only [stepCode, CreateAccount] at hb
      by_cases h1 : ¬ (account_type = "savings" ∨ account_type = "checking")
      · rw [if_pos h1] at hb
        exact hk b hb
      · rw [if_neg h1] at hb
        by_cases h2 : (s account_id).isSome
        · rw [if_pos h2] at hb
          exact hk b hb
        · rw [if_neg h2] at hb
          simp only [Store.hmset] at hb
          by_cases hki : k = account_id
          · rw [if_pos hki] at hb
            cases hb
            norm_num
          · rw [if_neg hki] at hb
            exact hk b hb
  | getBalance account_id =>
      simp only [stepCode] at hb
      rw [getBalance_frame] at hb
      exact hk b hb
  | deposit account_id amount =>
      simp only [stepCode, Deposit] at hb
      split at hb
      · exact hk b hb
      · split at hb
        · exact hk b hb
        · rename_i a hd
          simp only [Store.hsetBalance] at hb
          by_cases hki : k = account_id
          · subst hki
            have hsk : s k = some a := hd
            rw [if_pos rfl, hsk, Option.map_some'] at hb
            injection hb with hb2
            subst hb2
            have ha : 0 ≤ a.balance := hk a hsk
            have hamt : 0 < amount := lt_of_not_le (by assumption)
            simpa using add_nonneg ha hamt.le
          · rw [if_neg hki] at hb
            exact hk b hb
  | withdraw account_id amount =>
      simp only [stepCode, Withdraw] at hb
      split at hb
      · exact hk b hb
      · split at hb
        · exact hk b hb
        · split at hb
          · exact hk b hb
          · rename_i a hd h2
            simp only [Store.hsetBalance] at hb
            by_cases hki : k = account_id
            · subst hki
              have hsk : s k = some a := hd
              rw [if_pos rfl, hsk, Option.map_some'] at hb
              injection hb with hb2
              subst hb2
              simpa using sub_nonneg.mpr (not_lt.mp h2)
            · rw [if_neg hki] at hb
              exact hk b hb
  | calculateInterest account_id rate =>
      simp only [stepCode, CalculateInterest] at hb
      split at hb
      · exact hk b hb
      · split at hb
        · exact hk b hb
        · rename_i a hd
          simp only [Store.hsetBalance] at hb
          by_cases hki : k = account_id
          · subst hki
            have hsk : s k = some a := hd
            rw [if_pos rfl, hsk, Option.map_some'] at hb
            injection hb with hb2
            subst hb2
            have ha : 0 ≤ a.balance := hk a hsk
            have hrate : (0:ℚ) < rate := lt_of_not_le (by assumption)
            have hterm : 0 ≤ a.balance * (rate / 100) := by positivity
            simpa using add_nonneg ha hterm
          · rw [if_neg hki] at hb
            exact hk b hb

/-- Any single request preserves store-wide balance non-negativity. -/
theorem step_preserves_nonnegStore (s : Store) (r : Request)
    (h : NonNegStore s) : NonNegStore (stepCode s r).2 :=
  fun k b hb => step_balance_nonneg s r k b (fun a ha => h k a ha) hb

/-- Any sequence of requests preserves store-wide non-negativity. -/
theorem applySeq_preserves_nonnegStore (rs : List Request) (s : Store)
    (h : NonNegStore s) : NonNegStore (applySeq s rs) := by
  induction rs generalizing s with
  | nil => exact h
  | cons r rs ih => exact ih (stepCode s r).2 (step_preserves_nonnegStore s r h)

/-- C9: non-negativity of the stored balance is an invariant.  First
conjunct: for any account whose stored record has balance at least 0,
any single operation with any arguments leaves the (possibly rewritten)
record at that id with balance at least 0.  Second conjunct: every
account reachable from the empty store by any sequence of operations
(hence every account reachable from its creation with balance 0) has a
non-negative stored balance. -/
theorem balance_nonneg_invariant :
    (∀ (s : Store) (r : Request) (k : String) (a b : AccountRecord),
        s k = some a → 0 ≤ a.balance →
        (stepCode s r).2 k = some b → 0 ≤ b.balance) ∧
    (∀ (rs : List Request) (k : String) (b : AccountRecord),
        applySeq emptyStore rs k = some b → 0 ≤ b.balance) := by
  constructor
  · intro s r k a b hk ha hb
    refine step_balance_nonneg s r k b (fun a0 ha0 => ?_) hb
    rw [hk] at ha0
    cases ha0
    exact ha
  · intro rs k b hb
    exact applySeq_preserves_nonnegStore rs emptyStore
      (fun _ _ h => by cases h) k b hb

/-- Witness for C9: depositing 5 into "A" (balance 100) leaves a stored
record with non-negative balance 100 + 5. -/
theorem balance_nonneg_invariant_witness :
    (0:ℚ) ≤ (AccountRecord.mk "savings" (100 + 5)).balance :=
  balance_nonneg_invariant.1 wStoreA (.deposit "A" 5) "A"
    (AccountRecord.mk "savings" 100) (AccountRecord.mk "savings" (100 + 5))
    (by decide) (by decide) (by rfl)

/-- Frame helper: a balance overwrite at one id leaves every other key
of the store untouched. -/
theorem hsetBalance_frame (s : Store) (account_id k : String) (nb : ℚ)
    (hk : k ≠ account_id) : s.hsetBalance account_id nb k = s k := by
  simp [Store.hsetBalance, hk]

/-- Frame helper: a balance overwrite never changes the account_type
field of the record it rewrites. -/
theorem hsetBalance_type (s : Store) (account_id : String) (nb : ℚ) :
    (s.hsetBalance account_id nb account_id).map AccountRecord.account_type
      = (s account_id).map AccountRecord.account_type := by
  simp only [Store.hsetBalance, if_pos rfl]
  cases s account_id <;> rfl

/-- C10: every successful Deposit, Withdraw, or CalculateInterest on an
account id overwrites only the balance field of that id's record — its
account_type and the complete records of all other accounts are
unchanged — and GetBalance changes no stored state at all. -/
theorem mutators_overwrite_only_balance (s : Store) (account_id : String)
    (x : ℚ) :
    ((Deposit s account_id x).1.code = .OK →
       (∀ k, k ≠ account_id → (Deposit s account_id x).2 k = s k) ∧
       ((Deposit s account_id x).2 account_id).map AccountRecord.account_type
         = (s account_id).map AccountRecord.account_type) ∧
    ((Withdraw s account_id x).1.code = .OK →
       (∀ k, k ≠ account_id → (Withdraw s account_id x).2 k = s k) ∧
       ((Withdraw s account_id x).2 account_id).map AccountRecord.account_type
         = (s account_id).map AccountRecord.account_type) ∧
    ((CalculateInterest s account_id x).1.code = .OK →
       (∀ k, k ≠ account_id →
          (CalculateInterest s account_id x).2 k = s k) ∧
       ((CalculateInterest s account_id x).2 account_id).map
           AccountRecord.account_type
         = (s account_id).map AccountRecord.account_type) ∧
    (GetBalance s account_id).2 = s := by
  have hDep : (Deposit s account_id x).2 = s ∨
      (∃ nb, (Deposit s account_id x).2 = s.hsetBalance account_id nb) := by
    unfold Deposit
    split
    · exact Or.inl rfl
    · split
      · exact Or.inl rfl
      · exact Or.inr ⟨_, rfl⟩
  have hWit : (Withdraw s account_id x).2 = s ∨
      (∃ nb, (Withdraw s account_id x).2 = s.hsetBalance account_id nb) := by
    unfold Withdraw
    split
    · exact Or.inl rfl
    · split
      · exact Or.inl rfl
      · split
        · exact Or.inl rfl
        · exact Or.inr ⟨_, rfl⟩
  have hInt : (CalculateInterest s account_id x).2 = s ∨
      (∃ nb, (CalculateInterest s account_id x).2
        = s.hsetBalance account_id nb) := by
    unfold CalculateInterest
    split
    · exact Or.inl rfl
    · split
      · exact Or.inl rfl
      · exact Or.inr ⟨_, rfl⟩
  have frameOf : ∀ s2 : Store, s2 = s ∨
      (∃ nb, s2 = s.hsetBalance account_id nb) →
      (∀ k, k ≠ account_id → s2 k = s k) ∧
      (s2 account_id).map AccountRecord.account_type
        = (s account_id).map AccountRecord.account_type := by
    rintro s2 (rfl | ⟨nb, rfl⟩)
    · exact ⟨fun _ _ => rfl, rfl⟩
    · exact ⟨fun k hk => hsetBalance_frame s account_id k nb hk,
        hsetBalance_type s account_id nb⟩
  exact ⟨fun _ => frameOf _ hDep,
    fun _ => frameOf _ hWit,
    fun _ => frameOf _ hInt,
    getBalance_frame s account_id⟩

/-- Witness for C10: a successful deposit into "A" leaves the absent
account "B" absent and the account_type of "A" unchanged. -/
theorem mutators_overwrite_only_balance_witness :
    (Deposit wStoreA "A" 5).2 "B" = wStoreA "B" ∧
    ((Deposit wStoreA "A" 5).2 "A").map AccountRecord.account_type
      = (wStoreA "A").map AccountRecord.account_type :=
  ⟨((mutators_overwrite_only_balance wStoreA "A" 5).1 (by decide)).1 "B"
     (by decide),
   ((mutators_overwrite_only_balance wStoreA "A" 5).1 (by decide)).2⟩

/-!
Concurrency model for C5.  N worker threads each execute the body of
`Deposit(id, 1)` against one freshly created account (so the amount
validation `1 <= 0` is false and `get_account_data` always finds the
record).  Following `server.py`, each thread
  1. acquires the account lock (`with account_lock:` — `get_account_lock`
     hands every thread the same `threading.Lock` for a fixed id),
  2. reads the current balance (`get_account_data`),
  3. writes back the read value plus 1 (`hset ... new_balance`),
  4. releases the lock on leaving the `with` block.
Steps interleave arbitrarily across threads; the lock only blocks the
acquire step.  Since all N calls target the same id, the store is
projected to that account's balance.
-/

/-- Control point of one thread running the locked body of
`Deposit(id, 1)`: not yet started; holding the lock before the read;
holding the lock having read balance v; holding the lock having written
v + 1; done (lock released). -/
inductive ThreadPhase where
  | ready
  | locked
  | readBal (v : ℚ)
  | written
  | finished
deriving DecidableEq

/-- Whether the thread is inside the `with account_lock:` block. -/
def ThreadPhase.inCrit : ThreadPhase → Bool
  | .locked => true
  | .readBal _ => true
  | .written => true
  | _ => false

/-- How much of the thread's deposit has landed in the stored balance:
1 once its `hset` has executed, 0 before. -/
def ThreadPhase.contrib : ThreadPhase → ℚ
  | .written => 1
  | .finished => 1
  | _ => 0

/-- Global state: the stored balance of the one target account, whether
its lock is held, and each thread's control point. -/
structure DepositSystem (N : ℕ) where
  balance : ℚ
  lockHeld : Bool
  threads : Fin N → ThreadPhase

/-- Initial state: fresh account with balance 0, lock free, no thread
started. -/
def initSystem (N : ℕ) : DepositSystem N :=
  { balance := 0, lockHeld := false, threads := fun _ => .ready }

/-- One scheduler step: some thread performs its next action.  Acquire
blocks unless the lock is free; read, write and release are always
enabled for the thread holding them (the lock state recorded in the
thread's phase). -/
inductive DepositStep (N : ℕ) : DepositSystem N → DepositSystem N → Prop where
  | acquire (c : DepositSystem N) (t : Fin N) :
      c.threads t = .ready → c.lockHeld = false →
      DepositStep N c
        { balance := c.balance, lockHeld := true,
          threads := Function.update c.threads t .locked }
  | read (c : DepositSystem N) (t : Fin N) :
      c.threads t = .locked →
      DepositStep N c
        { balance := c.balance, lockHeld := c.lockHeld,
          threads := Function.update c.threads t (.readBal c.balance) }
  | write (c : DepositSystem N) (t : Fin N) (v : ℚ) :
      c.threads t = .readBal v →
      DepositStep N c
        { balance := v + 1, lockHeld := c.lockHeld,
          threads := Function.update c.threads t .written }
  | release (c : DepositSystem N) (t : Fin N) :
      c.threads t = .written →
      DepositStep N c
        { balance := c.balance, lockHeld := false,
          threads := Function.update c.threads t .finished }

/-- States reachable from the initial state by any interleaving. -/
def Reachable (N : ℕ) : DepositSystem N → Prop :=
  Relation.ReflTransGen (DepositStep N) (initSystem N)

/-- The inductive invariant: any thread inside the critical section
implies the lock is held; at most one thread is inside it; a value read
under the lock is still the current balance; and the balance equals the
number of deposits whose write has landed. -/
structure Inv (N : ℕ) (c : DepositSystem N) : Prop where
  lockOfCrit : ∀ t, (c.threads t).inCrit = true → c.lockHeld = true
  critUnique : ∀ t u, (c.threads t).inCrit = true →
    (c.threads u).inCrit = true → t = u
  readConsistent : ∀ t v, c.threads t = .readBal v → v = c.balance
  balCount : c.balance = ∑ t : Fin N, (c.threads t).contrib

/-- Updating one thread's phase shifts the landed-deposit sum by the
difference of the contributions. -/
theorem sum_contrib_update (N : ℕ) (f : Fin N → ThreadPhase) (t : Fin N)
    (ph : ThreadPhase) :
    ∑ u : Fin N, (Function.update f t ph u).contrib
      = (∑ u : Fin N, (f u).contrib) - (f t).contrib + ph.contrib := by
  classical
  have h1 : ∀ u, (Function.update f t ph u).contrib
      = Function.update (fun k => (f k).contrib) t ph.contrib u := fun u =>
    Function.apply_update (fun _ p => ThreadPhase.contrib p) f t ph u
  rw [Finset.sum_congr rfl (fun u _ => h1 u),
    Finset.sum_update_of_mem (Finset.mem_univ t),
    Finset.sdiff_singleton_eq_erase,
    Finset.sum_erase_eq_sub (Finset.mem_univ t)]
  ring

/-- If some thread t is in the critical section, mutual exclusion pins
every thread found in the critical section after updating t's phase to
be t itself. -/
theorem crit_after_update (N : ℕ) (c : DepositSystem N) (h : Inv N c)
    (t : Fin N) (htc : (c.threads t).inCrit = true) (ph : ThreadPhase) :
    ∀ u, (Function.update c.threads t ph u).inCrit = true → u = t := by
  intro u hu
  by_cases hut : u = t
  · exact hut
  · rw [Function.update_noteq hut] at hu
    exact h.critUnique u t hu htc

/-- If the lock is free, no thread is in the critical section, so after
updating t's phase only t can be in it. -/
theorem crit_after_update_unlocked (N : ℕ) (c : DepositSystem N)
    (h : Inv N c) (hl : c.lockHeld = false) (t : Fin N) (ph : ThreadPhase) :
    ∀ u, (Function.update c.threads t ph u).inCrit = true → u = t := by
  intro u hu
  by_cases hut : u = t
  · exact hut
  · rw [Function.update_noteq hut] at hu
    have hlock := h.lockOfCrit u hu
    rw [hl] at hlock
    exact (Bool.false_ne_true hlock).elim

/-- The invariant holds initially. -/
theorem inv_init (N : ℕ) : Inv N (initSystem N) := by
  refine ⟨?_, ?_, ?_, ?_⟩
  · intro t ht
    simp [initSystem, ThreadPhase.inCrit] at ht
  · intro t u ht _
    simp [initSystem, ThreadPhase.inCrit] at ht
  · intro t v ht
    simp [initSystem] at ht
  · simp [initSystem, ThreadPhase.contrib]

/-- The invariant is preserved by every step of every thread. -/
theorem inv_step (N : ℕ) (c c' : DepositSystem N) (h : Inv N c)
    (hs : DepositStep N c c') : Inv N c' := by
  cases hs with
  | acquire t ht hl =>
      have honly := crit_after_update_unlocked N c h hl t .locked
      refine ⟨fun _ _ => rfl, ?_, ?_, ?_⟩
      · exact fun u w hu hw => (honly u hu).trans (honly w hw).symm
      · intro u v huv
        dsimp only at huv ⊢
        by_cases hut : u = t
        · subst hut
          rw [Function.update_same] at huv
          cases huv
        · rw [Function.update_noteq hut] at huv
          have hcrit : (c.threads u).inCrit = true := by
            rw [huv]; rfl
          have hlock := h.lockOfCrit u hcrit
          rw [hl] at hlock
          exact (Bool.false_ne_true hlock).elim
      · dsimp only
        rw [sum_contrib_update, ht]
        simpa [ThreadPhase.contrib] using h.balCount
  | read t ht =>
      have htc : (c.threads t).inCrit = true := by rw [ht]; rfl
      have honly := crit_after_update N c h t htc (.readBal c.balance)
      refine ⟨fun _ _ => h.lockOfCrit t htc, ?_, ?_, ?_⟩
      · exact fun u w hu hw => (honly u hu).trans (honly w hw).symm
      · intro u v huv
        dsimp only at huv ⊢
        by_cases hut : u = t
        · subst hut
          rw [Function.update_same] at huv
          injection huv with hv
          exact hv.symm
        · rw [Function.update_noteq hut] at huv
          have hcrit : (c.threads u).inCrit = true := by
            rw [huv]; rfl
          exact absurd (h.critUnique u t hcrit htc) hut
      · dsimp only
        rw [sum_contrib_update, ht]
        simpa [ThreadPhase.contrib] using h.balCount
  | write t v ht =>
      have htc : (c.threads t).inCrit = true := by rw [ht]; rfl
      have honly := crit_after_update N c h t htc .written
      have hv : v = c.balance := h.readConsistent t v ht
      refine ⟨fun _ _ => h.lockOfCrit t htc, ?_, ?_, ?_⟩
      · exact fun u w hu hw => (honly u hu).trans (honly w hw).symm
      · intro u w huv
        dsimp only at huv ⊢
        by_cases hut : u = t
        · subst hut
          rw [Function.update_same] at huv
          cases huv
        · rw [Function.update_noteq hut] at huv
          have hcrit : (c.threads u).inCrit = true := by
            rw [huv]; rfl
          exact absurd (h.critUnique u t hcrit htc) hut
      · dsimp only
        rw [sum_contrib_update, ht, hv, h.balCount]
        simp [ThreadPhase.contrib]
  | release t ht =>
      have htc : (c.threads t).inCrit = true := by rw [ht]; rfl
      have honly := crit_after_update N c h t htc .finished
      refine ⟨?_, ?_, ?_, ?_⟩
      · intro u hu
        dsimp only at hu
        have hut := honly u hu
        subst hut
        rw [Function.update_same] at hu
        simp [ThreadPhase.inCrit] at hu
      · exact fun u w hu hw => (honly u hu).trans (honly w hw).symm
      · intro u w huv
        dsimp only at huv ⊢
        by_cases hut : u = t
        · subst hut
          rw [Function.update_same] at huv
          cases huv
        · rw [Function.update_noteq hut] at huv
          have hcrit : (c.threads u).inCrit = true := by
            rw [huv]; rfl
          exact absurd (h.critUnique u t hcrit htc) hut
      · dsimp only
        rw [sum_contrib_update, ht]
        simpa [ThreadPhase.contrib] using h.balCount

/-- Every reachable state satisfies the invariant. -/
theorem inv_reachable (N : ℕ) (c : DepositSystem N) (h : Reachable N c) :
    Inv N c := by
  induction h with
  | refl => exact inv_init N
  | tail _ hstep ih => exact inv_step N _ _ ih hstep

/-- C5: under every interleaving of N concurrent Deposit(id, 1) calls
against a freshly created account with balance 0, once all N threads
have finished the stored balance is exactly N: the per-account lock
serializes the read-modify-write sequences and no update is lost. -/
theorem concurrent_deposits_final_balance (N : ℕ) (c : DepositSystem N)
    (hreach : Reachable N c) (hdone : ∀ t, c.threads t = .finished) :
    c.balance = N := by
  have hinv := inv_reachable N c hreach
  rw [hinv.balCount]
  have hconst : ∀ t ∈ (Finset.univ : Finset (Fin N)),
      (c.threads t).contrib = 1 := by
    intro t _
    rw [hdone t]
    rfl
  rw [Finset.sum_congr rfl hconst]
  simp

/-- The schedule acquire, read, write, release of a single thread,
state by state. -/
def demo0 : DepositSystem 1 := initSystem 1

/-- After thread 0 acquires the lock. -/
def demo1 : DepositSystem 1 :=
  { balance := demo0.balance, lockHeld := true,
    threads := Function.update demo0.threads 0 .locked }

/-- After thread 0 reads the balance. -/
def demo2 : DepositSystem 1 :=
  { balance := demo1.balance, lockHeld := demo1.lockHeld,
    threads := Function.update demo1.threads 0 (.readBal demo1.balance) }

/-- After thread 0 writes back the read value plus 1. -/
def demo3 : DepositSystem 1 :=
  { balance := demo1.balance + 1, lockHeld := demo2.lockHeld,
    threads := Function.update demo2.threads 0 .written }

/-- After thread 0 releases the lock. -/
def demo4 : DepositSystem 1 :=
  { balance := demo3.balance, lockHeld := false,
    threads := Function.update demo3.threads 0 .finished }

/-- Witness for C5, N = 1: the explicit interleaving acquire, read,
write, release of the single thread ends with balance 1. -/
theorem concurrent_deposits_final_balance_witness :
    demo4.balance = ((1 : ℕ) : ℚ) := by
  refine concurrent_deposits_final_balance 1 demo4 ?_ ?_
  · exact Relation.ReflTransGen.tail (Relation.ReflTransGen.tail
      (Relation.ReflTransGen.tail (Relation.ReflTransGen.tail
        Relation.ReflTransGen.refl
        (DepositStep.acquire demo0 0 rfl rfl))
        (DepositStep.read demo1 0 rfl))
        (DepositStep.write demo2 0 demo1.balance rfl))
        (DepositStep.release demo3 0 rfl)
  · intro t
    have ht : t = 0 := Subsingleton.elim t 0
    subst ht
    rfl

end Bank
